import Mathlib

/-!
Shallow embedding of the `sycomix/sophon-wasm` library, covering the parts of
the code base that the verified claims refer to:

* `src/elements/primitives.rs` — LEB128 primitives (`VarUint32`, `VarUint64`,
  `VarInt32`, `VarInt64`, `VarInt7`, `CountedList`) and length-prefixed strings;
* `src/elements/section.rs` — `CustomSection` (de)serialization;
* `src/common/stack.rs` — `StackWithLimit`;
* `src/interpreter/validator.rs` — the function validator's stack discipline;
* `src/interpreter/env_native.rs` — the native-module adapter's index dispatch;
* `src/interpreter/program.rs` — `ProgramInstance::add_module` registry order.

Byte streams are modelled as `List Nat` (each element a byte value below 256);
a deserializer maps the input stream to `Except` of the decoded value paired
with the unconsumed rest of the stream, mirroring how the Rust code pulls bytes
out of an `io::Read`.  Machine integers are modelled as `Nat`/`Int` with
explicit `% 2 ^ w` wrapping at the points where the Rust types wrap.
-/

set_option maxRecDepth 4000

deriving instance DecidableEq for Except

namespace SophonWasm

/-- The deserialization errors of `elements::Error` that the primitives in
`src/elements/primitives.rs` and `src/elements/section.rs` can produce. -/
inductive PError where
  | UnexpectedEof
  | InvalidVarInt32
  | InvalidVarInt64
  | InvalidVarUint1 (b : Nat)
  | NonUtf8String
  deriving DecidableEq, Repr

/-- Loop of `VarUint32::deserialize` / `VarUint64::deserialize`
(src/elements/primitives.rs lines 35-53 and 86-104), parameterized by the bit
width `W` of the accumulator (`u32` resp. `u64`).  Each iteration reads one
byte, ORs its low 7 bits shifted by `shift` into `res` and stops when the
continuation bit is clear.  There is no bound on the number of iterations in
the source.  The shift amount is reduced `% W` and the shifted value truncated
`% 2 ^ W`, matching the release-mode wrapping of `<<` on `uW`. -/
def deVarUintLoop (W : Nat) : List Nat → Nat → Nat → Except PError (Nat × List Nat)
  | [], _, _ => .error .UnexpectedEof
  | b :: input, shift, res =>
    let res' := res ||| (((b &&& 0x7f) <<< (shift % W)) % 2 ^ W)
    if b >>> 7 = 0 then .ok (res', input)
    else deVarUintLoop W input (shift + 7) res'

/-- `VarUint32::deserialize` on a byte stream. -/
def varUint32_deserialize (input : List Nat) : Except PError (Nat × List Nat) :=
  deVarUintLoop 32 input 0 0

/-- `VarUint64::deserialize` on a byte stream. -/
def varUint64_deserialize (input : List Nat) : Except PError (Nat × List Nat) :=
  deVarUintLoop 64 input 0 0

/-- Byte sequence written by `VarUint32::serialize` / `VarUint64::serialize`
(src/elements/primitives.rs lines 55-73 and 106-124); the two impls run the
identical algorithm on `u32` resp. `u64`, both embedded here on `Nat`.  Each
step emits the low 7 bits, shifts right by 7 and sets the continuation bit
when more bits remain. -/
def serVarUintBytes (v : Nat) : List Nat :=
  if h : v >>> 7 > 0 then ((v &&& 0x7f) ||| 0x80) :: serVarUintBytes (v >>> 7)
  else [v &&& 0x7f]
termination_by v
decreasing_by
  simp only [Nat.shiftRight_eq_div_pow] at h ⊢
  omega

/-- Loop of `VarInt32::deserialize` / `VarInt64::deserialize`
(src/elements/primitives.rs lines 225-248 and 289-312), parameterized by the
width `W` (32 or 64) and the error `e` returned when `shift` exceeds `W - 1`
(`InvalidVarInt32` resp. `InvalidVarInt64`).  The `iW` accumulator is carried
as its two's-complement representative `res < 2 ^ W`; the shifted byte is
truncated `% 2 ^ W` exactly where the `iW` shift drops high bits, and the
sign-extension `res |= (1 << shift).wrapping_neg()` (applied when the final
byte has bit 6 set and the incremented shift is still below `W`) ORs in the
mask `2 ^ W - 2 ^ (shift + 7)`. -/
def deVarIntLoop (W : Nat) (e : PError) : List Nat → Nat → Nat → Except PError (Nat × List Nat)
  | input, shift, res =>
    if shift > W - 1 then .error e
    else
      match input with
      | [] => .error .UnexpectedEof
      | b :: input' =>
        let res' := res ||| (((b &&& 0x7f) <<< shift) % 2 ^ W)
        if b >>> 7 = 0 then
          .ok ((if shift + 7 < W ∧ b &&& 0x40 = 0x40
                then res' ||| (2 ^ W - 2 ^ (shift + 7)) else res'), input')
        else deVarIntLoop W e input' (shift + 7) res'

/-- Reinterpret the two's-complement representative `n < 2 ^ W` as a signed
integer (the value of the Rust `iW` whose bit pattern is `n`). -/
def toIntW (W : Nat) (n : Nat) : Int :=
  if n < 2 ^ (W - 1) then (n : Int) else (n : Int) - 2 ^ W

/-- `VarInt32::deserialize` on a byte stream, result converted to the signed
value of the `i32` accumulator. -/
def varInt32_deserialize (input : List Nat) : Except PError (Int × List Nat) :=
  (deVarIntLoop 32 .InvalidVarInt32 input 0 0).map (fun p => (toIntW 32 p.1, p.2))

/-- `VarInt64::deserialize` on a byte stream. -/
def varInt64_deserialize (input : List Nat) : Except PError (Int × List Nat) :=
  (deVarIntLoop 64 .InvalidVarInt64 input 0 0).map (fun p => (toIntW 64 p.1, p.2))

/-- Byte sequence written by `VarInt32::serialize` / `VarInt64::serialize`
(src/elements/primitives.rs lines 250-271 and 314-335); the two impls run the
identical algorithm on `i32` resp. `i64`, both embedded here on `Int`.
`v & 0x7f` is the low 7 bits `(v % 128).toNat` (Lean's `%` on `Int` is
Euclidean, hence non-negative here) and the arithmetic shift `v >>= 7` is the
floor division `v / 128` (Euclidean = floor for a positive divisor).  The loop
stops after emitting a byte whose sign bit agrees with the exhausted
remainder (`0` with bit 6 clear, or `-1` with bit 6 set). -/
def serVarIntBytes (v : Int) : List Nat :=
  if _h : (v / 128 = 0 ∧ (v % 128).toNat &&& 0x40 = 0)
      ∨ (v / 128 = -1 ∧ (v % 128).toNat &&& 0x40 = 0x40) then
    [(v % 128).toNat]
  else
    ((v % 128).toNat ||| 0x80) :: serVarIntBytes (v / 128)
termination_by v.natAbs
decreasing_by
  rcases Decidable.em (v = 0) with h0 | h0
  · exact absurd (by subst h0; exact Or.inl ⟨by decide, by decide⟩) _h
  · rcases Decidable.em (v = -1) with h1 | h1
    · exact absurd (by subst h1; exact Or.inr ⟨by decide, by decide⟩) _h
    · omega

/-- `VarInt7::deserialize` (src/elements/primitives.rs lines 184-195): read a
byte, OR in the high bit when bit 6 is set (sign expansion), reinterpret as
`i8`. -/
def varInt7_deserialize : List Nat → Except PError (Int × List Nat)
  | [] => .error .UnexpectedEof
  | b :: rest =>
    let b' := if b &&& 0x40 = 0x40 then b ||| 0x80 else b
    .ok (toIntW 8 b', rest)

/-- Read `n` consecutive elements with the element deserializer `f`
(the loop body of `CountedList::deserialize`). -/
def readList {α : Type} (f : List Nat → Except PError (α × List Nat)) :
    Nat → List Nat → Except PError (List α × List Nat)
  | 0, input => .ok ([], input)
  | n + 1, input => do
    let (x, input') ← f input
    let (xs, input'') ← readList f n input'
    .ok (x :: xs, input'')

/-- `CountedList::deserialize` (src/elements/primitives.rs lines 486-495):
a `VarUint32` count followed by that many elements. -/
def countedList_deserialize {α : Type} (f : List Nat → Except PError (α × List Nat))
    (input : List Nat) : Except PError (List α × List Nat) := do
  let (count, input') ← varUint32_deserialize input
  readList f count input'

/-- `read_exact` on the modelled stream: take exactly `n` bytes, failing with
`UnexpectedEof` when fewer are available. -/
def readExact : Nat → List Nat → Except PError (List Nat × List Nat)
  | 0, input => .ok ([], input)
  | _ + 1, [] => .error .UnexpectedEof
  | n + 1, b :: input => do
    let (bs, rest) ← readExact n input
    .ok (b :: bs, rest)

/-- Modelled from the Rust standard library: the UTF-8 validation performed by
`String::from_utf8`.  Accepts exactly the well-formed UTF-8 byte sequences
(shortest-form encodings, no surrogates, max `U+10FFFF`). -/
def utf8Valid : List Nat → Bool
  | [] => true
  | b :: rest =>
    if b < 0x80 then utf8Valid rest
    else if 0xc2 ≤ b ∧ b ≤ 0xdf then
      match rest with
      | c1 :: rest' => if 0x80 ≤ c1 ∧ c1 ≤ 0xbf then utf8Valid rest' else false
      | [] => false
    else if 0xe0 ≤ b ∧ b ≤ 0xef then
      match rest with
      | c1 :: c2 :: rest' =>
        let lo1 := if b = 0xe0 then 0xa0 else 0x80
        let hi1 := if b = 0xed then 0x9f else 0xbf
        if (lo1 ≤ c1 ∧ c1 ≤ hi1) ∧ (0x80 ≤ c2 ∧ c2 ≤ 0xbf) then utf8Valid rest' else false
      | _ => false
    else if 0xf0 ≤ b ∧ b ≤ 0xf4 then
      match rest with
      | c1 :: c2 :: c3 :: rest' =>
        let lo1 := if b = 0xf0 then 0x90 else 0x80
        let hi1 := if b = 0xf4 then 0x8f else 0xbf
        if (lo1 ≤ c1 ∧ c1 ≤ hi1) ∧ (0x80 ≤ c2 ∧ c2 ≤ 0xbf) ∧ (0x80 ≤ c3 ∧ c3 ≤ 0xbf)
        then utf8Valid rest' else false
      | _ => false
    else false

/-- `impl Deserialize for String` (src/elements/primitives.rs lines 451-465):
a `VarUint32` byte length, then that many bytes validated as UTF-8.  Strings
are modelled by their UTF-8 byte sequence. -/
def string_deserialize (input : List Nat) : Except PError (List Nat × List Nat) := do
  let (length, input') ← varUint32_deserialize input
  if length > 0 then
    let (buf, rest) ← readExact length input'
    if utf8Valid buf then .ok (buf, rest) else .error .NonUtf8String
  else .ok ([], input')

/-- `impl Serialize for String` (src/elements/primitives.rs lines 467-475):
the byte length as a minimal `VarUint32` followed by the bytes. -/
def string_serialize (s : List Nat) : List Nat :=
  serVarUintBytes s.length ++ s

/-- `CustomSection` (src/elements/section.rs lines 183-211): a name and a raw
payload, the name modelled by its UTF-8 bytes. -/
structure CustomSection where
  name : List Nat
  payload : List Nat
  deriving DecidableEq, Repr

/-- `CustomSection::deserialize` (src/elements/section.rs lines 213-227): read
the section length, the name, then `section_length - (name.len() as u32 +
name.len() as u32 / 128 + 1)` payload bytes.  The `u32` subtraction and the
`usize → u32` cast wrap `% 2 ^ 32` as in release-mode Rust. -/
def customSection_deserialize (input : List Nat) :
    Except PError (CustomSection × List Nat) := do
  let (section_length, input₁) ← varUint32_deserialize input
  let (name, input₂) ← string_deserialize input₁
  let header := (name.length % 2 ^ 32 + name.length % 2 ^ 32 / 128 + 1) % 2 ^ 32
  let payload_left := (section_length + 2 ^ 32 - header) % 2 ^ 32
  let (payload, rest) ← readExact payload_left input₂
  .ok ({ name := name, payload := payload }, rest)

/-- `CustomSection::serialize` (src/elements/section.rs lines 229-241): the
name and payload are accumulated in a `CountedWriter`, which prefixes the
accumulated bytes with their length as a minimal `VarUint32` (`done`,
src/elements/primitives.rs lines 515-528). -/
def customSection_serialize (s : CustomSection) : List Nat :=
  let data := string_serialize s.name ++ s.payload
  serVarUintBytes data.length ++ data

/-! ### `src/common/stack.rs` — `StackWithLimit` -/

/-- The errors produced by `common::stack` (the Rust type is a `String`
message; each distinct message is a constructor here). -/
inductive StackError where
  | exceededStackLimit (limit : Nat)
  | nonEmptyStackExpected
  | getOutOfBounds (index size : Nat)
  deriving DecidableEq, Repr

/-- `StackWithLimit<T>` (src/common/stack.rs lines 14-21): a `VecDeque`
(modelled as a `List` whose last element is the back / top of the stack)
plus a limit. -/
structure StackWithLimit (T : Type) where
  values : List T
  limit : Nat
  deriving DecidableEq, Repr

namespace StackWithLimit

/-- `StackWithLimit::is_empty`. -/
def is_empty (s : StackWithLimit T) : Bool := s.values.isEmpty

/-- `StackWithLimit::len`. -/
def len (s : StackWithLimit T) : Nat := s.values.length

/-- `StackWithLimit::top` (lines 54-58): the back of the deque. -/
def top (s : StackWithLimit T) : Except StackError T :=
  match s.values.getLast? with
  | some v => .ok v
  | none => .error .nonEmptyStackExpected

/-- `StackWithLimit::get` (lines 66-72): the `index`-th element counted from
the top; out of range is an error. -/
def get (s : StackWithLimit T) (index : Nat) : Except StackError T :=
  if h : index ≥ s.values.length then .error (.getOutOfBounds index s.values.length)
  else .ok (s.values.get ⟨s.values.length - 1 - index, by omega⟩)

/-- `StackWithLimit::push` (lines 74-81): fails when the length has reached
the limit, otherwise appends at the back. -/
def push (s : StackWithLimit T) (value : T) : Except StackError (StackWithLimit T) :=
  if s.values.length ≥ s.limit then .error (.exceededStackLimit s.limit)
  else .ok { s with values := s.values ++ [value] }

/-- `StackWithLimit::pop` (lines 96-100): removes and returns the back. -/
def pop (s : StackWithLimit T) : Except StackError (T × StackWithLimit T) :=
  match s.values.getLast? with
  | some v => .ok (v, { s with values := s.values.dropLast })
  | none => .error .nonEmptyStackExpected

/-- `StackWithLimit::resize` (lines 102-105): `VecDeque::resize` semantics —
truncate to `new_size` or pad at the back with `dummy` (the validator only
ever shrinks, per the `debug_assert`). -/
def resize (s : StackWithLimit T) (new_size : Nat) (dummy : T) : StackWithLimit T :=
  { s with values := s.values.take new_size
      ++ List.replicate (new_size - s.values.length) dummy }

end StackWithLimit

/-! ### `src/interpreter/validator.rs` — the function validator -/

/-- `elements::ValueType`. -/
inductive ValueType where
  | I32 | I64 | F32 | F64
  deriving DecidableEq, Repr

/-- `elements::BlockType`. -/
inductive BlockType where
  | NoResult
  | Value (t : ValueType)
  deriving DecidableEq, Repr

/-- `StackValueType` (src/interpreter/validator.rs lines 34-43). -/
inductive StackValueType where
  | Any
  | AnyUnlimited
  | Specific (t : ValueType)
  deriving DecidableEq, Repr

/-- The `PartialEq` of `StackValueType` (lines 785-793): `Any`/`AnyUnlimited`
on either side compares equal to anything; two `Specific`s compare their
value types.  The `PartialEq<ValueType> for StackValueType` impl
(lines 795-803) coincides with comparing against `Specific`. -/
def StackValueType.eq : StackValueType → StackValueType → Bool
  | .Specific a, .Specific b => a = b
  | _, _ => true

/-- `BlockFrameType` (lines 62-75). -/
inductive BlockFrameType where
  | Function | Block | Loop | IfTrue | IfFalse
  deriving DecidableEq, Repr

/-- `BlockFrame` (lines 45-60). -/
structure BlockFrame where
  frame_type : BlockFrameType
  block_type : BlockType
  begin_position : Nat
  branch_position : Nat
  end_position : Nat
  value_stack_len : Nat
  deriving DecidableEq, Repr

/-- `InstructionOutcome` (lines 80-87). -/
inductive InstructionOutcome where
  | ValidateNextInstruction
  | Unreachable
  deriving DecidableEq, Repr

/-- The validation error messages the modelled validator functions produce
(each a distinct `Error::Validation(format!(..))` message in the source). -/
inductive VMsg where
  | expectedValueOnTop (expected got : StackValueType)
  | accessingParentFrame
  | tooLargeAlignment (align max_align : Nat)
  | expectedBlockReturn (required : BlockType) (actual : Option StackValueType)
  | memoryMissing
  deriving DecidableEq, Repr

/-- `interpreter::Error`, restricted to what the modelled validator produces:
stack errors converted by `From<stack::Error>`, validation messages, and
`Panic` standing for the `expect` in `check_stack_access` (which panics when
the frame stack is empty). -/
inductive VError where
  | Stack (e : StackError)
  | Validation (m : VMsg)
  | Panic
  deriving DecidableEq, Repr

/-- `FunctionValidationContext` (lines 14-32).  The module reference is
modelled from the spec by the single fact the claims need: `Modelled from the
spec:` memory loads/stores require a declared memory, and the validator only
ever queries the default memory index, so `module_has_memory` records whether
that lookup succeeds (`interpreter::module` is not among the sources). -/
structure FunctionValidationContext where
  module_has_memory : Bool
  position : Nat
  locals : List ValueType
  value_stack : StackWithLimit StackValueType
  frame_stack : StackWithLimit BlockFrame
  return_type : Option BlockType
  labels : List (Nat × Nat)
  deriving DecidableEq, Repr

namespace FunctionValidationContext

/-- `check_stack_access` (lines 746-753): the top frame's base must lie
strictly below the current value-stack length; the `expect` on an empty frame
stack is a panic. -/
def check_stack_access (ctx : FunctionValidationContext) : Except VError Unit :=
  match ctx.frame_stack.top with
  | .error _ => .error .Panic
  | .ok frame =>
    if ctx.value_stack.len > frame.value_stack_len then .ok ()
    else .error (.Validation .accessingParentFrame)

/-- `push_value` (lines 599-601). -/
def push_value (ctx : FunctionValidationContext) (value_type : StackValueType) :
    Except VError FunctionValidationContext :=
  match ctx.value_stack.push value_type with
  | .ok vs => .ok { ctx with value_stack := vs }
  | .error e => .error (.Stack e)

/-- `pop_value` (lines 603-614): after the stack-access check, pop; a
matching `Specific` or an `Any` is consumed, an `AnyUnlimited` is pushed
back, and a mismatching `Specific` is an error. -/
def pop_value (ctx : FunctionValidationContext) (value_type : StackValueType) :
    Except VError FunctionValidationContext := do
  ctx.check_stack_access
  match ctx.value_stack.pop with
  | .error e => .error (.Stack e)
  | .ok (popped, vs) =>
    let ctx' := { ctx with value_stack := vs }
    match popped with
    | .Specific t =>
      if StackValueType.eq (.Specific t) value_type then .ok ctx'
      else .error (.Validation (.expectedValueOnTop value_type (.Specific t)))
    | .Any => .ok ctx'
    | .AnyUnlimited => ctx'.push_value .AnyUnlimited

/-- `tee_value` (lines 616-623): like `pop_value` but only inspects the top;
the context is not modified. -/
def tee_value (ctx : FunctionValidationContext) (value_type : StackValueType) :
    Except VError Unit := do
  ctx.check_stack_access
  match ctx.value_stack.top with
  | .error e => .error (.Stack e)
  | .ok top =>
    match top with
    | .Specific t =>
      if StackValueType.eq (.Specific t) value_type then .ok ()
      else .error (.Validation (.expectedValueOnTop value_type (.Specific t)))
    | .Any => .ok ()
    | .AnyUnlimited => .ok ()

/-- `pop_any_value` (lines 625-635): pop any value; an `AnyUnlimited` is
pushed back and reported as `Any`. -/
def pop_any_value (ctx : FunctionValidationContext) :
    Except VError (StackValueType × FunctionValidationContext) := do
  ctx.check_stack_access
  match ctx.value_stack.pop with
  | .error e => .error (.Stack e)
  | .ok (popped, vs) =>
    let ctx' := { ctx with value_stack := vs }
    match popped with
    | .Specific t => .ok (.Specific t, ctx')
    | .Any => .ok (.Any, ctx')
    | .AnyUnlimited => do
      let ctx'' ← ctx'.push_value .AnyUnlimited
      .ok (.Any, ctx'')

/-- `unreachable` (lines 642-644): push an `AnyUnlimited` marker onto the
value stack. -/
def unreachable (ctx : FunctionValidationContext) : Except VError FunctionValidationContext :=
  ctx.push_value .AnyUnlimited

/-- `top_label` (lines 646-648). -/
def top_label (ctx : FunctionValidationContext) : Except VError BlockFrame :=
  match ctx.frame_stack.top with
  | .ok f => .ok f
  | .error e => .error (.Stack e)

/-- `push_label` (lines 650-659). -/
def push_label (ctx : FunctionValidationContext) (frame_type : BlockFrameType)
    (block_type : BlockType) : Except VError FunctionValidationContext :=
  match ctx.frame_stack.push
      { frame_type := frame_type
        block_type := block_type
        begin_position := ctx.position
        branch_position := ctx.position
        end_position := ctx.position
        value_stack_len := ctx.value_stack.len } with
  | .ok fs => .ok { ctx with frame_stack := fs }
  | .error e => .error (.Stack e)

/-- `HashMap::insert` on the label map, modelled on an association list. -/
def labelsInsert (labels : List (Nat × Nat)) (k v : Nat) : List (Nat × Nat) :=
  (labels.filter (fun p => p.1 ≠ k)) ++ [(k, v)]

/-- `require_label` (lines 685-687): the `idx`-th frame counted from the top
of the frame stack. -/
def require_label (ctx : FunctionValidationContext) (idx : Nat) : Except VError BlockFrame :=
  match ctx.frame_stack.get idx with
  | .ok f => .ok f
  | .error e => .error (.Stack e)

/-- `pop_label` (lines 661-683): pop the top frame; pop the result value if
the value stack grew beyond the frame's base; cut the value stack back to the
base; check the result against the frame's block type; record the label; and
re-push the frame's result type. -/
def pop_label (ctx : FunctionValidationContext) :
    Except VError (InstructionOutcome × FunctionValidationContext) := do
  match ctx.frame_stack.pop with
  | .error e => .error (.Stack e)
  | .ok (frame, fs) =>
    let ctx₁ := { ctx with frame_stack := fs }
    let popRes : Except VError (Option StackValueType × FunctionValidationContext) :=
      if ctx₁.value_stack.len > frame.value_stack_len then
        match ctx₁.value_stack.pop with
        | .error e => .error (.Stack e)
        | .ok (v, vs) => .ok (some v, { ctx₁ with value_stack := vs })
      else .ok (none, ctx₁)
    match popRes with
    | .error e => .error e
    | .ok (actual_value_type, ctx₂) =>
      let ctx₃ := { ctx₂ with
        value_stack := ctx₂.value_stack.resize frame.value_stack_len .Any }
      let typeOk : Bool :=
        match frame.block_type, actual_value_type with
        | .NoResult, none => true
        | .NoResult, some vt => vt = .AnyUnlimited
        | .Value _, none => false
        | .Value required, some vt => StackValueType.eq vt (.Specific required)
      if typeOk then do
        let ctx₄ :=
          if ¬ ctx₃.frame_stack.is_empty then
            { ctx₃ with labels := labelsInsert ctx₃.labels frame.begin_position ctx₃.position }
          else ctx₃
        match frame.block_type with
        | .Value value_type => do
          let ctx₅ ← ctx₄.push_value (.Specific value_type)
          .ok (.ValidateNextInstruction, ctx₅)
        | .NoResult => .ok (.ValidateNextInstruction, ctx₄)
      else .error (.Validation (.expectedBlockReturn frame.block_type actual_value_type))

/-- `require_memory` (lines 716-720), with the module lookup modelled from
the spec as `module_has_memory` (see `FunctionValidationContext`). -/
def require_memory (ctx : FunctionValidationContext) : Except VError Unit :=
  if ctx.module_has_memory then .ok () else .error (.Validation .memoryMissing)

end FunctionValidationContext

/-- `NATURAL_ALIGNMENT` (src/interpreter/validator.rs line 12). -/
def NATURAL_ALIGNMENT : Nat := 0xFFFFFFFF

/-- `1u32.checked_shl(align).unwrap_or(u32::MAX)`: `checked_shl` yields
`None` for shift amounts of 32 or more. -/
def checkedShlOneOrMax (align : Nat) : Nat :=
  if align < 32 then 1 <<< align else 0xFFFFFFFF

/-- `Validator::validate_load` (lines 404-415): alignment check (skipped for
the `NATURAL_ALIGNMENT` sentinel), pop the I32 address, require the memory,
push the loaded type. -/
def validate_load (ctx : FunctionValidationContext) (align max_align : Nat)
    (value_type : StackValueType) :
    Except VError (InstructionOutcome × FunctionValidationContext) := do
  if align ≠ NATURAL_ALIGNMENT ∧ checkedShlOneOrMax align > max_align then
    .error (.Validation (.tooLargeAlignment align max_align))
  else do
    let ctx₁ ← ctx.pop_value (.Specific .I32)
    ctx₁.require_memory
    let ctx₂ ← ctx₁.push_value value_type
    .ok (.ValidateNextInstruction, ctx₂)

/-- `Validator::validate_store` (lines 417-428): alignment check, require the
memory, pop the stored value, pop the I32 address. -/
def validate_store (ctx : FunctionValidationContext) (align max_align : Nat)
    (value_type : StackValueType) :
    Except VError (InstructionOutcome × FunctionValidationContext) := do
  if align ≠ NATURAL_ALIGNMENT ∧ checkedShlOneOrMax align > max_align then
    .error (.Validation (.tooLargeAlignment align max_align))
  else do
    ctx.require_memory
    let ctx₁ ← ctx.pop_value value_type
    let ctx₂ ← ctx₁.pop_value (.Specific .I32)
    .ok (.ValidateNextInstruction, ctx₂)

/-- `Validator::validate_br` (lines 472-483): look up the `idx`-th enclosing
frame; for a non-`Loop` frame with a `Value` block type, `tee_value` checks
(without consuming) the top of the operand stack; outcome `Unreachable`. -/
def validate_br (ctx : FunctionValidationContext) (idx : Nat) :
    Except VError (InstructionOutcome × FunctionValidationContext) := do
  let frame ← ctx.require_label idx
  if frame.frame_type ≠ .Loop then
    match frame.block_type with
    | .Value value_type => do
      ctx.tee_value (.Specific value_type)
      .ok (.Unreachable, ctx)
    | .NoResult => .ok (.Unreachable, ctx)
  else .ok (.Unreachable, ctx)

/-- `Validator::validate_br_if` (lines 485-498): pop the I32 condition, then
the same frame lookup and unconsuming `tee_value` check as `validate_br`;
outcome `ValidateNextInstruction`. -/
def validate_br_if (ctx : FunctionValidationContext) (idx : Nat) :
    Except VError (InstructionOutcome × FunctionValidationContext) := do
  let ctx₁ ← ctx.pop_value (.Specific .I32)
  let frame ← ctx₁.require_label idx
  if frame.frame_type ≠ .Loop then
    match frame.block_type with
    | .Value value_type => do
      ctx₁.tee_value (.Specific value_type)
      .ok (.ValidateNextInstruction, ctx₁)
    | .NoResult => .ok (.ValidateNextInstruction, ctx₁)
  else .ok (.ValidateNextInstruction, ctx₁)

/-! ### `src/interpreter/env_native.rs` — the native-module adapter -/

/-- `NATIVE_INDEX_FUNC_MIN` (src/interpreter/env_native.rs line 15). -/
def NATIVE_INDEX_FUNC_MIN : Nat := 10001

/-- `NATIVE_INDEX_GLOBAL_MIN` (src/interpreter/env_native.rs line 17). -/
def NATIVE_INDEX_GLOBAL_MIN : Nat := 20001

/-- `UserFunctionDescriptor` (src/interpreter/env_native.rs lines 26-32). -/
inductive UserFunctionDescriptor where
  | Static (name : String) (params : List ValueType) (result : Option ValueType)
  | Heap (name : String) (params : List ValueType) (result : Option ValueType)
  deriving DecidableEq, Repr

/-- `UserFunctionDescriptor::name`. -/
def UserFunctionDescriptor.name : UserFunctionDescriptor → String
  | .Static n _ _ => n
  | .Heap n _ _ => n

/-- Outcome of `NativeModuleInstance::call_internal_function`: the call is
delegated to the wrapped env module, dispatched to the user executor with the
descriptor's name, or fails with `Error::Native` when the index is in the
native range but no descriptor exists. -/
inductive NativeCallOutcome where
  | delegatedToEnv (index : Nat)
  | executorCall (name : String)
  | nativeError (index : Nat)
  deriving DecidableEq, Repr

/-- `NativeModuleInstance::call_internal_function` (lines 205-217): indices
outside `[NATIVE_INDEX_FUNC_MIN, NATIVE_INDEX_GLOBAL_MIN)` go to the wrapped
env module; otherwise the descriptor at `index - NATIVE_INDEX_FUNC_MIN` is
looked up and its name passed to the executor. -/
def call_internal_function (functions : List UserFunctionDescriptor) (index : Nat) :
    NativeCallOutcome :=
  if index < NATIVE_INDEX_FUNC_MIN ∨ index ≥ NATIVE_INDEX_GLOBAL_MIN then
    .delegatedToEnv index
  else
    match functions.get? (index - NATIVE_INDEX_FUNC_MIN) with
    | some f => .executorCall f.name
    | none => .nativeError index

/-- Outcome of `NativeModuleInstance::global`: delegated to the wrapped env
module, resolved to the native global at a position, or `Error::Native`. -/
inductive NativeGlobalOutcome where
  | delegatedToEnv (index : Nat)
  | nativeGlobal (position : Nat)
  | nativeError (index : Nat)
  deriving DecidableEq, Repr

/-- `NativeModuleInstance::global` (lines 158-172): indices below
`NATIVE_INDEX_GLOBAL_MIN` delegate to the env module; otherwise the native
global at `index - NATIVE_INDEX_GLOBAL_MIN` is looked up among the
`globals_len` user globals. -/
def native_global (globals_len : Nat) (index : Nat) : NativeGlobalOutcome :=
  if index < NATIVE_INDEX_GLOBAL_MIN then .delegatedToEnv index
  else if index - NATIVE_INDEX_GLOBAL_MIN < globals_len then
    .nativeGlobal (index - NATIVE_INDEX_GLOBAL_MIN)
  else .nativeError index

/-! ### `src/interpreter/program.rs` — the module registry -/

/-- `ProgramInstanceEssence` (src/interpreter/program.rs lines 15-19):
the `name → module instance` registry, its `HashMap` modelled as an
association list; generic in the module-instance type `M`. -/
structure ProgramInstanceEssence (M : Type) where
  modules : List (String × M)

/-- `HashMap::insert`: replace any existing binding of `name`. -/
def modulesInsert {M : Type} (es : ProgramInstanceEssence M) (name : String) (m : M) :
    ProgramInstanceEssence M :=
  { modules := (name, m) :: es.modules.filter (fun p => p.1 ≠ name) }

/-- `ProgramInstanceEssence::module` (lines 85-88): registry lookup. -/
def essence_module {M : Type} (es : ProgramInstanceEssence M) (name : String) : Option M :=
  (es.modules.find? (fun p => p.1 = name)).map (fun p => p.2)

/-- `ProgramInstance::add_module` (lines 42-50), generic in the module type
`M` and error type `ε`.  `ModuleInstance::new` + `instantiate` (external code)
are abstracted as the `new_instantiate` outcome and `run_start_function` as a
function of the instance; the registry insertion happens between the two, and
a failing start function leaves the insertion in place. -/
def add_module {M ε : Type} (es : ProgramInstanceEssence M) (name : String)
    (new_instantiate : Except ε M) (run_start_function : M → Except ε Unit) :
    Except ε M × ProgramInstanceEssence M :=
  match new_instantiate with
  | .error e => (.error e, es)
  | .ok inst =>
    let es' := modulesInsert es name inst
    match run_start_function inst with
    | .error e => (.error e, es')
    | .ok _ => (.ok inst, es')

/-- A small concrete validation context used to exercise the validator: one
`I32` on the operand stack above the base of a single `Function` frame. -/
def sampleContext : FunctionValidationContext :=
  { module_has_memory := true
    position := 0
    locals := []
    value_stack := { values := [.Specific .I32], limit := 16 }
    frame_stack :=
      { values := [⟨.Function, .NoResult, 0, 0, 0, 0⟩], limit := 16 }
    return_type := some .NoResult
    labels := [] }

/-- A validation context whose top frame is a `Loop` (above the `Function`
frame), used to exercise `validate_br` against a loop target. -/
def sampleLoopContext : FunctionValidationContext :=
  { module_has_memory := true
    position := 0
    locals := []
    value_stack := { values := [.Specific .I32], limit := 16 }
    frame_stack :=
      { values := [⟨.Function, .NoResult, 0, 0, 0, 0⟩, ⟨.Loop, .NoResult, 0, 0, 0, 0⟩]
        limit := 16 }
    return_type := some .NoResult
    labels := [] }

/-- A validation context whose top frame is a `Block` with result type `I32`
and an `I32` on the operand stack, used to exercise `validate_br`'s
unconsuming `tee_value` check. -/
def sampleValueContext : FunctionValidationContext :=
  { module_has_memory := true
    position := 0
    locals := []
    value_stack := { values := [.Specific .I32], limit := 16 }
    frame_stack :=
      { values := [⟨.Function, .NoResult, 0, 0, 0, 0⟩, ⟨.Block, .Value .I32, 0, 0, 0, 0⟩]
        limit := 16 }
    return_type := some .NoResult
    labels := [] }

/-- A validation context right after dead code began: a single `AnyUnlimited`
marker on the operand stack above the `Function` frame's base. -/
def sampleUnreachableContext : FunctionValidationContext :=
  { module_has_memory := true
    position := 0
    locals := []
    value_stack := { values := [.AnyUnlimited], limit := 16 }
    frame_stack :=
      { values := [⟨.Function, .NoResult, 0, 0, 0, 0⟩], limit := 16 }
    return_type := some .NoResult
    labels := [] }

/-! ## Equation lemmas for the serializer loops -/

/-- Last iteration of the unsigned serializer loop: a value below 128 emits a
single byte without continuation bit. -/
theorem serVarUintBytes_last {v : Nat} (h : v < 128) : serVarUintBytes v = [v &&& 0x7f] := by
  rw [serVarUintBytes.eq_def]
  rw [dif_neg]
  simp only [Nat.shiftRight_eq_div_pow, gt_iff_lt, not_lt]
  omega

/-- Continuing iteration of the unsigned serializer loop: a value of 128 or
more emits its low 7 bits with the continuation bit and recurses on the
shifted value. -/
theorem serVarUintBytes_step {v : Nat} (h : 128 ≤ v) :
    serVarUintBytes v = ((v &&& 0x7f) ||| 0x80) :: serVarUintBytes (v >>> 7) := by
  rw [serVarUintBytes.eq_def]
  rw [dif_pos]
  simp only [Nat.shiftRight_eq_div_pow, gt_iff_lt]
  omega

/-- Last iteration of the signed serializer loop. -/
theorem serVarIntBytes_last {v : Int}
    (h : (v / 128 = 0 ∧ (v % 128).toNat &&& 0x40 = 0)
      ∨ (v / 128 = -1 ∧ (v % 128).toNat &&& 0x40 = 0x40)) :
    serVarIntBytes v = [(v % 128).toNat] := by
  rw [serVarIntBytes.eq_def, dif_pos h]

/-- Continuing iteration of the signed serializer loop. -/
theorem serVarIntBytes_step {v : Int}
    (h : ¬ ((v / 128 = 0 ∧ (v % 128).toNat &&& 0x40 = 0)
      ∨ (v / 128 = -1 ∧ (v % 128).toNat &&& 0x40 = 0x40))) :
    serVarIntBytes v = ((v % 128).toNat ||| 0x80) :: serVarIntBytes (v / 128) := by
  rw [serVarIntBytes.eq_def, dif_neg h]

/-! ## Fidelity checks against the unit tests of `src/elements/primitives.rs` -/

/-- `varuint32_8192` (serialization direction). -/
theorem test_varuint32_ser_8192 : serVarUintBytes 8192 = [0x80, 0x40] := by
  rw [serVarUintBytes_step (by norm_num), serVarUintBytes_last (by decide)]
  decide

/-- `varuint32_8192` (deserialization direction). -/
theorem test_varuint32_de_8192 : varUint32_deserialize [0x80, 0x40] = .ok (8192, []) := by
  decide

/-- `varint32_8192`. -/
theorem test_varint32_ser_8192 : serVarIntBytes 8192 = [0x80, 0xc0, 0x00] := by
  rw [serVarIntBytes_step (by decide), serVarIntBytes_step (by decide),
    serVarIntBytes_last (by decide)]
  decide

/-- `varint32_neg_8192`. -/
theorem test_varint32_ser_neg_8192 : serVarIntBytes (-8192) = [0x80, 0x40] := by
  rw [serVarIntBytes_step (by decide), serVarIntBytes_last (by decide)]
  decide

/-- `varint32_min`. -/
theorem test_varint32_min :
    serVarIntBytes (-2147483648) = [0x80, 0x80, 0x80, 0x80, 0x78]
      ∧ varInt32_deserialize [0x80, 0x80, 0x80, 0x80, 0x78] = .ok (-2147483648, []) := by
  constructor
  · rw [serVarIntBytes_step (by decide), serVarIntBytes_step (by decide),
      serVarIntBytes_step (by decide), serVarIntBytes_step (by decide),
      serVarIntBytes_last (by decide)]
    decide
  · decide

/-- `varint32_max`. -/
theorem test_varint32_max :
    serVarIntBytes 2147483647 = [0xff, 0xff, 0xff, 0xff, 0x07]
      ∧ varInt32_deserialize [0xff, 0xff, 0xff, 0xff, 0x07] = .ok (2147483647, []) := by
  constructor
  · rw [serVarIntBytes_step (by decide), serVarIntBytes_step (by decide),
      serVarIntBytes_step (by decide), serVarIntBytes_step (by decide),
      serVarIntBytes_last (by decide)]
    decide
  · decide

/-- `varint64_min` (deserialization direction). -/
theorem test_varint64_de_min :
    varInt64_deserialize [0x80, 0x80, 0x80, 0x80, 0x80, 0x80, 0x80, 0x80, 0x80, 0x7f]
      = .ok (-9223372036854775808, []) := by
  decide

/-- `varint64_max` (deserialization direction). -/
theorem test_varint64_de_max :
    varInt64_deserialize [0xff, 0xff, 0xff, 0xff, 0xff, 0xff, 0xff, 0xff, 0xff, 0x00]
      = .ok (9223372036854775807, []) := by
  decide

/-! ## Claims -/

/-- C9: the bytes `[0x85, 0x80, 0x80, 0x80, 0x00, 0x01, 0x7d, 0x05, 0x07,
0x09]` deserialize as a counted list of `VarInt7`: the padded 5-byte
`VarUint32` length prefix decodes to 5, the resulting list is
`[1, -3, 5, 7, 9]` — exactly five elements — and its second element,
sign-extended from the byte `0x7d`, is `-3`. -/
theorem claim_C9 :
    varUint32_deserialize [0x85, 0x80, 0x80, 0x80, 0x00] = .ok (5, [])
      ∧ countedList_deserialize varInt7_deserialize
          [0x85, 0x80, 0x80, 0x80, 0x00, 0x01, 0x7d, 0x05, 0x07, 0x09]
        = .ok ([1, -3, 5, 7, 9], [])
      ∧ [(1 : Int), -3, 5, 7, 9].length = 5
      ∧ [(1 : Int), -3, 5, 7, 9].get? 1 = some (-3) := by
  refine ⟨by decide, by decide, by decide, by decide⟩

/-- C1 (evaluation at the failing inputs): contrary to the claim, the
unsigned deserializers enforce no byte bound at all — `VarUint32::deserialize`
happily consumes six bytes (`VarUint64::deserialize` eleven) and returns
`Ok(0)` where the claim requires `InvalidVarInt32`/`InvalidVarInt64` after
five (resp. ten) bytes.  The signed deserializers do enforce the bound on the
very same inputs. -/
theorem claim_C1 :
    varUint32_deserialize [0x80, 0x80, 0x80, 0x80, 0x80, 0x00] = .ok (0, [])
      ∧ varUint64_deserialize
          [0x80, 0x80, 0x80, 0x80, 0x80, 0x80, 0x80, 0x80, 0x80, 0x80, 0x00] = .ok (0, [])
      ∧ varInt32_deserialize [0x80, 0x80, 0x80, 0x80, 0x80, 0x00]
        = .error .InvalidVarInt32
      ∧ varInt64_deserialize
          [0x80, 0x80, 0x80, 0x80, 0x80, 0x80, 0x80, 0x80, 0x80, 0x80, 0x00]
        = .error .InvalidVarInt64 := by
  refine ⟨by decide, by decide, by decide, by decide⟩

/-- C8: `StackWithLimit` — `push` fails exactly at the limit and otherwise
appends at the back; `pop` and `top` fail exactly on the empty stack;
`get i` fails exactly for `i ≥ len` and otherwise returns the `i`-th element
counted from the top. -/
theorem claim_C8 (T : Type) (s : StackWithLimit T) (v : T) (i : Nat) :
    (s.push v = .error (.exceededStackLimit s.limit) ↔ s.len ≥ s.limit)
      ∧ (s.len < s.limit → s.push v = .ok { values := s.values ++ [v], limit := s.limit })
      ∧ (s.pop = .error .nonEmptyStackExpected ↔ s.values = [])
      ∧ (s.top = .error .nonEmptyStackExpected ↔ s.values = [])
      ∧ (s.get i = .error (.getOutOfBounds i s.len) ↔ i ≥ s.len)
      ∧ (∀ h : i < s.len, s.get i = .ok (s.values.get ⟨s.len - 1 - i, by
          simp only [StackWithLimit.len] at h ⊢; omega⟩)) := by
  refine ⟨?_, ?_, ?_, ?_, ?_, ?_⟩
  · simp only [StackWithLimit.push, StackWithLimit.len, ge_iff_le]
    constructor
    · intro he
      by_contra hlt
      rw [if_neg (by omega)] at he
      exact absurd he (by simp)
    · intro hge
      rw [if_pos (by omega)]
  · intro hlt
    simp only [StackWithLimit.push, StackWithLimit.len] at hlt ⊢
    rw [if_neg (by omega)]
  · simp only [StackWithLimit.pop]
    rcases hL : s.values.getLast? with - | x
    · simp only [iff_true_intro (List.getLast?_eq_none_iff.mp hL), iff_true]
    · have : s.values ≠ [] := by
        intro hnil
        rw [hnil] at hL
        exact absurd hL (by simp)
      simp only [iff_false_intro this, iff_false]
      simp
  · simp only [StackWithLimit.top]
    rcases hL : s.values.getLast? with - | x
    · simp only [iff_true_intro (List.getLast?_eq_none_iff.mp hL), iff_true]
    · have : s.values ≠ [] := by
        intro hnil
        rw [hnil] at hL
        exact absurd hL (by simp)
      simp only [iff_false_intro this, iff_false]
      simp
  · simp only [StackWithLimit.get, StackWithLimit.len, ge_iff_le]
    constructor
    · intro he
      by_contra hlt
      rw [dif_neg (by omega)] at he
      exact absurd he (by simp)
    · intro hge
      rw [dif_pos (by omega)]
  · intro h
    simp only [StackWithLimit.get, StackWithLimit.len] at h ⊢
    rw [dif_neg (by omega)]

/-- C8 witness: the claim instantiated on the two-element `Nat` stack
`[10, 20]` with limit 2: a further push overflows, and the element at
depth 1 from the top is `10`. -/
theorem claim_C8_witness :
    StackWithLimit.push { values := [10, 20], limit := 2 } (30 : Nat)
        = .error (.exceededStackLimit 2)
      ∧ StackWithLimit.get { values := [10, 20], limit := 2 } 1 = .ok (10 : Nat) := by
  have h := claim_C8 Nat { values := [10, 20], limit := 2 } 30 1
  refine ⟨(h.1).mpr (by decide), ?_⟩
  have h6 := h.2.2.2.2.2 (by decide)
  simpa using h6

/-- C7: the native-module adapter — `call_internal_function` dispatches to
the user executor exactly for indices in
`[NATIVE_INDEX_FUNC_MIN, NATIVE_INDEX_GLOBAL_MIN)` = `[10001, 20001)` that
have a descriptor at `index - 10001`, errors for in-range indices without a
descriptor, and delegates every other index to the wrapped env module;
native globals use the base `20001` the same way. -/
theorem claim_C7 (functions : List UserFunctionDescriptor) (globals_len index : Nat) :
    (NATIVE_INDEX_FUNC_MIN = 10001 ∧ NATIVE_INDEX_GLOBAL_MIN = 20001)
      ∧ (call_internal_function functions index = .delegatedToEnv index
          ↔ index < 10001 ∨ 20001 ≤ index)
      ∧ (∀ f, 10001 ≤ index → index < 20001 →
          functions.get? (index - 10001) = some f →
          call_internal_function functions index = .executorCall f.name)
      ∧ (10001 ≤ index → index < 20001 →
          functions.get? (index - 10001) = none →
          call_internal_function functions index = .nativeError index)
      ∧ (native_global globals_len index = .delegatedToEnv index ↔ index < 20001)
      ∧ (20001 ≤ index → index - 20001 < globals_len →
          native_global globals_len index = .nativeGlobal (index - 20001)) := by
  refine ⟨⟨rfl, rfl⟩, ?_, ?_, ?_, ?_, ?_⟩
  · constructor
    · intro h
      by_contra hc
      push_neg at hc
      simp only [call_internal_function, NATIVE_INDEX_FUNC_MIN, NATIVE_INDEX_GLOBAL_MIN,
        ge_iff_le] at h
      rw [if_neg (by omega)] at h
      rcases hg : functions.get? (index - 10001) with - | f
      · rw [hg] at h; exact absurd h (by simp)
      · rw [hg] at h; exact absurd h (by simp)
    · intro h
      simp only [call_internal_function, NATIVE_INDEX_FUNC_MIN, NATIVE_INDEX_GLOBAL_MIN]
      rw [if_pos (by omega)]
  · intro f h1 h2 hg
    simp only [call_internal_function, NATIVE_INDEX_FUNC_MIN, NATIVE_INDEX_GLOBAL_MIN]
    rw [if_neg (by omega), hg]
  · intro h1 h2 hg
    simp only [call_internal_function, NATIVE_INDEX_FUNC_MIN, NATIVE_INDEX_GLOBAL_MIN]
    rw [if_neg (by omega), hg]
  · constructor
    · intro h
      by_contra hc
      simp only [native_global, NATIVE_INDEX_GLOBAL_MIN, not_lt] at h hc
      rw [if_neg (by omega)] at h
      split at h <;> exact absurd h (by simp)
    · intro h
      simp only [native_global, NATIVE_INDEX_GLOBAL_MIN]
      rw [if_pos (by omega)]
  · intro h1 h2
    simp only [native_global, NATIVE_INDEX_GLOBAL_MIN]
    rw [if_neg (by omega), if_pos (by omega)]

/-- C7 witness: one static descriptor named `f`; index 10001 dispatches to
the executor with the name `f`, index 3 and index 20001 delegate, and with
one user global, global index 20001 resolves to native position 0. -/
theorem claim_C7_witness :
    call_internal_function [.Static "f" [] none] 10001 = .executorCall "f"
      ∧ call_internal_function [.Static "f" [] none] 3 = .delegatedToEnv 3
      ∧ call_internal_function [.Static "f" [] none] 20001 = .delegatedToEnv 20001
      ∧ native_global 1 20001 = .nativeGlobal 0 := by
  refine ⟨?_, ?_, ?_, ?_⟩
  · exact (claim_C7 [.Static "f" [] none] 1 10001).2.2.1 (.Static "f" [] none)
      (by decide) (by decide) rfl
  · exact ((claim_C7 [.Static "f" [] none] 1 3).2.1).mpr (by decide)
  · exact ((claim_C7 [.Static "f" [] none] 1 20001).2.1).mpr (by decide)
  · exact (claim_C7 [.Static "f" [] none] 1 20001).2.2.2.2.2 (by decide) (by decide)

/-- C10: `ProgramInstance::add_module` inserts the instantiated module into
the registry before running the start function; when the start function
fails, the error is returned but the registry still maps the name to the
partially-started instance. -/
theorem claim_C10 {M ε : Type} (es : ProgramInstanceEssence M) (name : String) (inst : M)
    (run_start : M → Except ε Unit) (e : ε) (hs : run_start inst = .error e) :
    add_module es name (.ok inst) run_start = (.error e, modulesInsert es name inst)
      ∧ essence_module (modulesInsert es name inst) name = some inst := by
  constructor
  · simp only [add_module, hs]
  · simp [essence_module, modulesInsert, List.find?]

/-- C2 (evaluation at the failing input): a custom section whose name is 256
bytes long breaks the round-trip.  The byte string
`leb(260) ++ leb(256) ++ name(256 × 'a') ++ [0xAA, 0xBB]` decodes, but the
formula `section_length - (name.len + name.len/128 + 1)` charges 259 bytes
for a header that actually occupies 258 (the minimal LEB128 of 256 is 2
bytes, not 3), so only one of the two payload bytes is read; re-encoding the
decoded section yields a byte string that decodes to a *different* AST (the
payload shrinks again, to `[]`), refuting `encode(decode(B))
≈ B`. -/
theorem claim_C2 :
    customSection_deserialize
        ([0x84, 0x02] ++ [0x80, 0x02] ++ List.replicate 256 0x61 ++ [0xAA, 0xBB])
      = .ok ({ name := List.replicate 256 0x61, payload := [0xAA] }, [0xBB])
      ∧ customSection_serialize { name := List.replicate 256 0x61, payload := [0xAA] }
        = [0x83, 0x02] ++ [0x80, 0x02] ++ List.replicate 256 0x61 ++ [0xAA]
      ∧ customSection_deserialize
          ([0x83, 0x02] ++ [0x80, 0x02] ++ List.replicate 256 0x61 ++ [0xAA])
        = .ok ({ name := List.replicate 256 0x61, payload := [] }, [0xAA]) := by
  have h256 : serVarUintBytes 256 = [0x80, 0x02] := by
    rw [serVarUintBytes_step (by norm_num), serVarUintBytes_last (by decide)]
    decide
  have h259 : serVarUintBytes 259 = [0x83, 0x02] := by
    rw [serVarUintBytes_step (by norm_num), serVarUintBytes_last (by decide)]
    decide
  refine ⟨by decide, ?_, by decide⟩
  simp only [customSection_serialize, string_serialize, List.length_replicate, h256]
  have hlen : (([0x80, 0x02] ++ List.replicate 256 0x61 ++ [0xAA]) : List Nat).length = 259 := by
    simp
  rw [hlen, h259]
  simp

/-- C10 witness: a start function that always traps; `add_module` returns
the error yet the registry lookup still yields the module. -/
theorem claim_C10_witness :
    add_module (M := Nat) (ε := Unit) { modules := [] } "m" (.ok 7)
        (fun _ => .error ())
      = (.error (), modulesInsert { modules := [] } "m" 7)
      ∧ essence_module (modulesInsert (M := Nat) { modules := [] } "m" 7) "m" = some 7 :=
  claim_C10 { modules := [] } "m" 7 (fun _ => .error ()) () rfl

/-- Disjoint bitwise OR is addition: a value below `2 ^ s` ORed with a
multiple of `2 ^ s`. -/
theorem lor_eq_add_of_lt {r s : Nat} (m : Nat) (h : r < 2 ^ s) :
    r ||| (2 ^ s * m) = r + 2 ^ s * m := by
  rw [Nat.lor_comm, ← Nat.mul_add_lt_is_or h, Nat.add_comm]

/-- Masking with `0x7f` is reduction modulo 128. -/
theorem and127_eq_mod (b : Nat) : b &&& 127 = b % 128 := by
  have h := Nat.and_pow_two_sub_one_eq_mod b 7
  norm_num at h
  exact h

/-- Setting the continuation bit on a 7-bit value adds 128. -/
theorem lor128_eq_add {x : Nat} (h : x < 128) : x ||| 128 = x + 128 := by
  have h2 := lor_eq_add_of_lt (r := x) (s := 7) 1 (by omega)
  norm_num at h2
  exact h2

/-- The continuation test: `b >>> 7 = 0` holds exactly for bytes below 128. -/
theorem shr7_eq_zero_iff {b : Nat} : b >>> 7 = 0 ↔ b < 128 := by
  simp only [Nat.shiftRight_eq_div_pow]
  omega

/-- Bit 6 of a 7-bit value reads its numeric size. -/
theorem and64_eq {x : Nat} (h : x < 128) : x &&& 64 = if 64 ≤ x then 64 else 0 := by
  have hall : ∀ y, y < 128 → y &&& 64 = if 64 ≤ y then 64 else 0 := by decide
  exact hall x h

/-- Round-trip of the unsigned LEB128 loops, generalized over the
accumulator: deserializing the serialized bytes of `v` at shift `s` with
accumulated bits `r` yields `r + 2 ^ s * v` and the untouched rest. -/
theorem deVarUintLoop_ser (W : Nat) :
    ∀ v s r rest, s < W → v < 2 ^ (W - s) → r < 2 ^ s →
      deVarUintLoop W (serVarUintBytes v ++ rest) s r = .ok (r + 2 ^ s * v, rest) := by
  intro v
  induction v using Nat.strong_induction_on with
  | _ v ih =>
    intro s r rest hsW hv hr
    have hpow : (2 : Nat) ^ (W - s) * 2 ^ s = 2 ^ W := by
      rw [← pow_add]
      congr 1
      omega
    by_cases hvlt : v < 128
    · rw [serVarUintBytes_last hvlt]
      have hb : v &&& 0x7f = v := by rw [and127_eq_mod]; omega
      simp only [List.cons_append, List.nil_append, deVarUintLoop, hb]
      rw [if_pos (shr7_eq_zero_iff.mpr hvlt)]
      have hsmod : s % W = s := Nat.mod_eq_of_lt hsW
      have hfit : v <<< s < 2 ^ W := by
        rw [Nat.shiftLeft_eq]
        calc v * 2 ^ s < 2 ^ (W - s) * 2 ^ s :=
              (Nat.mul_lt_mul_right (Nat.pos_pow_of_pos s (by norm_num))).mpr hv
          _ = 2 ^ W := hpow
      rw [hsmod, Nat.mod_eq_of_lt hfit, Nat.shiftLeft_eq, mul_comm v (2 ^ s),
        lor_eq_add_of_lt v hr]
      rfl
    · rw [serVarUintBytes_step (by omega)]
      have hb7 : v &&& 0x7f = v % 128 := and127_eq_mod v
      have hbyte : (v &&& 0x7f) ||| 0x80 = v % 128 + 128 := by
        rw [hb7]; exact lor128_eq_add (by omega)
      simp only [List.cons_append, deVarUintLoop, hbyte]
      rw [if_neg (by
        intro hz
        have := shr7_eq_zero_iff.mp hz
        omega)]
      have hx : (v % 128 + 128) &&& 0x7f = v % 128 := by
        rw [and127_eq_mod]
        omega
      rw [hx]
      have hsW7 : s + 7 < W := by
        by_contra hc
        push_neg at hc
        have hle : (2 : Nat) ^ (W - s) ≤ 2 ^ 7 := Nat.pow_le_pow_right (by norm_num) (by omega)
        have h128 : (2 : Nat) ^ 7 = 128 := by norm_num
        omega
      have hsmod : s % W = s := Nat.mod_eq_of_lt hsW
      have hfit : (v % 128) <<< s < 2 ^ W := by
        rw [Nat.shiftLeft_eq]
        calc v % 128 * 2 ^ s < 128 * 2 ^ s :=
              (Nat.mul_lt_mul_right (Nat.pos_pow_of_pos s (by norm_num))).mpr (by omega)
          _ = 2 ^ 7 * 2 ^ s := by norm_num
          _ = 2 ^ (7 + s) := by rw [pow_add]
          _ ≤ 2 ^ W := Nat.pow_le_pow_right (by norm_num) (by omega)
      rw [hsmod, Nat.mod_eq_of_lt hfit, Nat.shiftLeft_eq, mul_comm (v % 128) (2 ^ s),
        lor_eq_add_of_lt (v % 128) hr]
      simp only [List.append_eq]
      have hrec := ih (v >>> 7) (by
          have : v >>> 7 = v / 128 := by rw [Nat.shiftRight_eq_div_pow]
          omega)
        (s + 7) (r + 2 ^ s * (v % 128)) rest hsW7
        (by
          rw [Nat.shiftRight_eq_div_pow]
          norm_num
          have h1 : (2 : Nat) ^ (W - s) = 2 ^ (W - (s + 7)) * 2 ^ 7 := by
            rw [← pow_add]
            congr 1
            omega
          rw [h1] at hv
          norm_num at h1 ⊢
          omega)
        (by
          have h1 : r + 2 ^ s * (v % 128) < 2 ^ s * (v % 128 + 1) := by
            rw [Nat.mul_add]
            omega
          have h2 : 2 ^ s * (v % 128 + 1) ≤ 2 ^ s * 128 := by
            exact Nat.mul_le_mul_left _ (by omega)
          have h3 : (2 : Nat) ^ s * 128 = 2 ^ (s + 7) := by
            rw [pow_add]
            norm_num
          omega)
      rw [hrec]
      congr 2
      have hsplit : v = 128 * (v / 128) + v % 128 := (Nat.div_add_mod v 128).symm
      have hshr : v >>> 7 = v / 128 := by rw [Nat.shiftRight_eq_div_pow]
      rw [hshr]
      calc r + 2 ^ s * (v % 128) + 2 ^ (s + 7) * (v / 128)
          = r + 2 ^ s * (v % 128 + 128 * (v / 128)) := by rw [pow_add]; ring
        _ = r + 2 ^ s * v := by rw [Nat.add_comm (v % 128), ← hsplit]

/-- `a % b` for `-b ≤ a < 0` is `a + b` (Euclidean remainder). -/
theorem emod_eq_add_of_neg {x n : Int} (h1 : -n ≤ x) (h2 : x < 0) : x % n = x + n := by
  have key : (x + n * 1) % n = x % n := Int.add_mul_emod_self_left x n 1
  rw [mul_one] at key
  rw [← key, Int.emod_eq_of_lt (by omega) (by omega)]

/-- Truncating a shifted value: `(b * 2 ^ s) % 2 ^ W` keeps the low
`W - s` bits of `b` in place. -/
theorem mul_pow_mod_pow (b s W : Nat) (hsW : s ≤ W) :
    (b * 2 ^ s) % 2 ^ W = b % 2 ^ (W - s) * 2 ^ s := by
  rcases Nat.exists_eq_add_of_le hsW with ⟨m, rfl⟩
  rw [Nat.add_sub_cancel_left]
  rw [pow_add, mul_comm ((2:Nat) ^ s) (2 ^ m), Nat.mul_mod_mul_right]

/-- A natural equals the `toNat` of any integer it casts to. -/
theorem nat_eq_toNat_of_cast {n : Nat} {x : Int} (h : (n : Int) = x) : n = x.toNat := by
  omega

/-- Round-trip of the signed LEB128 loops, generalized over the accumulator:
deserializing the serialized bytes of `v` at shift `s` with accumulated bits
`r` yields the two's-complement representative of `r + 2 ^ s * v`. -/
theorem deVarIntLoop_ser (W : Nat) (e : PError) :
    ∀ (v : Int) (s r : Nat) (rest : List Nat), s < W →
      -(2 ^ (W - 1 - s) : Int) ≤ v → v < 2 ^ (W - 1 - s) → r < 2 ^ s →
      deVarIntLoop W e (serVarIntBytes v ++ rest) s r
        = .ok ((((r + 2 ^ s * v : Int) % 2 ^ W)).toNat, rest) := by
  suffices H : ∀ (n : Nat) (v : Int), v.natAbs ≤ n → ∀ (s r : Nat) (rest : List Nat), s < W →
      -(2 ^ (W - 1 - s) : Int) ≤ v → v < 2 ^ (W - 1 - s) → r < 2 ^ s →
      deVarIntLoop W e (serVarIntBytes v ++ rest) s r
        = .ok ((((r + 2 ^ s * v : Int) % 2 ^ W)).toNat, rest) by
    intro v s r rest
    exact H v.natAbs v le_rfl s r rest
  intro n
  induction n using Nat.strong_induction_on with
  | _ n ihn =>
    intro v hvn s r rest hsW hlo hhi hr
    have hb_nonneg : (0 : Int) ≤ v % 128 := Int.emod_nonneg v (by norm_num)
    have hb_small : (v % 128 : Int) < 128 := Int.emod_lt_of_pos v (by norm_num)
    have hb_lt : (v % 128).toNat < 128 := by omega
    have hb_cast : (((v % 128).toNat : Nat) : Int) = v % 128 := Int.toNat_of_nonneg hb_nonneg
    have hrZ : ((r : Nat) : Int) < 2 ^ s := by exact_mod_cast hr
    have hcastpow : ∀ k : Nat, (((2 ^ k : Nat) : Int)) = 2 ^ k := by
      intro k
      push_cast
      ring
    by_cases hstop : -64 ≤ v ∧ v < 64
    · -- final byte: the serializer emits a single byte and stops
      have hcond : ((v / 128 = 0 ∧ (v % 128).toNat &&& 0x40 = 0)
          ∨ (v / 128 = -1 ∧ (v % 128).toNat &&& 0x40 = 0x40)) := by
        rcases Int.le_or_lt 0 v with hpos | hneg
        · refine Or.inl ⟨by omega, ?_⟩
          rw [and64_eq hb_lt, if_neg (by omega)]
        · refine Or.inr ⟨by omega, ?_⟩
          rw [and64_eq hb_lt, if_pos (by omega)]
      rw [serVarIntBytes_last hcond]
      simp only [List.cons_append, List.nil_append, deVarIntLoop]
      rw [if_neg (by omega : ¬ s > W - 1)]
      rw [if_pos (shr7_eq_zero_iff.mpr hb_lt)]
      have hA : (v % 128).toNat &&& 0x7f = (v % 128).toNat := by
        rw [and127_eq_mod]; omega
      rw [hA, Nat.shiftLeft_eq, mul_pow_mod_pow _ _ _ (by omega)]
      have hres : r ||| ((v % 128).toNat % 2 ^ (W - s) * 2 ^ s)
          = r + 2 ^ s * ((v % 128).toNat % 2 ^ (W - s)) := by
        rw [mul_comm ((v % 128).toNat % 2 ^ (W - s)) (2 ^ s)]
        exact lor_eq_add_of_lt _ hr
      rw [hres]
      rcases Int.le_or_lt 0 v with hpos | hneg
      · -- non-negative final value: no sign extension
        have hveq : v % 128 = v := Int.emod_eq_of_lt hpos (by omega)
        have hb64 : (v % 128).toNat &&& 64 = 0 := by
          rw [and64_eq hb_lt, if_neg (by omega)]
        rw [if_neg (by rintro ⟨-, hcc⟩; rw [hb64] at hcc; exact absurd hcc (by norm_num))]
        have hblt2 : (v % 128).toNat < 2 ^ (W - s) := by
          have h1 : ((2 ^ (W - 1 - s) : Nat) : Int) = 2 ^ (W - 1 - s) := hcastpow _
          have h2 : ((v % 128).toNat : Int) < ((2 ^ (W - 1 - s) : Nat) : Int) := by
            rw [h1, hb_cast, hveq]; exact hhi
          have h3 : (v % 128).toNat < 2 ^ (W - 1 - s) := by exact_mod_cast h2
          have h4 : (2 : Nat) ^ (W - 1 - s) ≤ 2 ^ (W - s) :=
            Nat.pow_le_pow_right (by norm_num) (by omega)
          omega
        rw [Nat.mod_eq_of_lt hblt2]
        congr 2
        apply nat_eq_toNat_of_cast
        have h0 : (0 : Int) ≤ (r : Int) + 2 ^ s * v :=
          add_nonneg (by positivity) (mul_nonneg (by positivity) hpos)
        have hup : (r : Int) + 2 ^ s * v < 2 ^ W := by
          have h1 : (2 : Int) ^ s * v ≤ 2 ^ s * (2 ^ (W - 1 - s) - 1) := by
            apply mul_le_mul_of_nonneg_left (by omega) (by positivity)
          have h2 : (2 : Int) ^ s * 2 ^ (W - 1 - s) = 2 ^ (W - 1) := by
            rw [← pow_add]; congr 1; omega
          have h3 : (2 : Int) ^ (W - 1) ≤ 2 ^ W :=
            pow_le_pow_right (by norm_num) (by omega)
          nlinarith [hrZ]
        rw [Int.emod_eq_of_lt h0 hup]
        push_cast
        rw [hb_cast, hveq]
      · -- negative final value
        have hveq : v % 128 = v + 128 := by omega
        have hb64 : (v % 128).toNat &&& 64 = 64 := by
          rw [and64_eq hb_lt, if_pos (by omega)]
        have hlo2W : -(2 ^ W : Int) ≤ (r : Int) + 2 ^ s * v := by
          have h1 : (2 : Int) ^ s * (-(2 ^ (W - 1 - s))) ≤ 2 ^ s * v := by
            apply mul_le_mul_of_nonneg_left hlo (by positivity)
          have h2 : (2 : Int) ^ s * 2 ^ (W - 1 - s) = 2 ^ (W - 1) := by
            rw [← pow_add]; congr 1; omega
          have h3 : (2 : Int) ^ (W - 1) ≤ 2 ^ W :=
            pow_le_pow_right (by norm_num) (by omega)
          nlinarith
        have hup0 : (r : Int) + 2 ^ s * v < 0 := by
          have h1 : (2 : Int) ^ s * v ≤ 2 ^ s * (-1) := by
            apply mul_le_mul_of_nonneg_left (by omega) (by positivity)
          nlinarith [hrZ]
        have hemod : ((r : Int) + 2 ^ s * v) % 2 ^ W = (r : Int) + 2 ^ s * v + 2 ^ W :=
          emod_eq_add_of_neg hlo2W hup0
        by_cases hs7 : s + 7 < W
        · -- sign extension applies
          rw [if_pos ⟨hs7, hb64⟩]
          have hmod_id : (v % 128).toNat % 2 ^ (W - s) = (v % 128).toNat := by
            apply Nat.mod_eq_of_lt
            have : (2 : Nat) ^ 7 ≤ 2 ^ (W - s) := Nat.pow_le_pow_right (by norm_num) (by omega)
            norm_num at this
            omega
          rw [hmod_id]
          have hfit7 : r + 2 ^ s * (v % 128).toNat < 2 ^ (s + 7) := by
            have h1 : 2 ^ s * (v % 128).toNat + r < 2 ^ s * ((v % 128).toNat + 1) := by
              rw [Nat.mul_add]
              omega
            have h2 : (2 : Nat) ^ s * ((v % 128).toNat + 1) ≤ 2 ^ s * 128 :=
              Nat.mul_le_mul_left _ (by omega)
            have h3 : (2 : Nat) ^ s * 128 = 2 ^ (s + 7) := by
              rw [pow_add]; norm_num
            omega
          obtain ⟨d, hd⟩ : ∃ d, 2 ^ (W - s - 7) = d + 1 :=
            ⟨2 ^ (W - s - 7) - 1, by
              have := Nat.pos_pow_of_pos (W - s - 7) (show 0 < 2 by norm_num)
              omega⟩
          have hWsplit : (2 : Nat) ^ W = 2 ^ (s + 7) * 2 ^ (W - s - 7) := by
            rw [← pow_add]; congr 1; omega
          have hmask : (2 : Nat) ^ W - 2 ^ (s + 7) = 2 ^ (s + 7) * d := by
            rw [hWsplit, hd]
            ring_nf
            omega
          have hext : (r + 2 ^ s * (v % 128).toNat) ||| (2 ^ W - 2 ^ (s + 7))
              = r + 2 ^ s * (v % 128).toNat + (2 ^ W - 2 ^ (s + 7)) := by
            rw [hmask]
            exact lor_eq_add_of_lt d hfit7
          rw [hext]
          congr 2
          apply nat_eq_toNat_of_cast
          rw [hemod]
          have hsub : (2 : Nat) ^ (s + 7) ≤ 2 ^ W :=
            Nat.pow_le_pow_right (by norm_num) (by omega)
          push_cast [hsub]
          rw [hb_cast, hveq]
          have h128 : ((2 : Int) ^ (s + 7)) = 2 ^ s * 128 := by
            rw [pow_add]; norm_num
          rw [h128]
          ring
        · -- no sign extension: the high bits are cut off by the `iW` width
          rw [if_neg (by rintro ⟨hcc, -⟩; omega)]
          congr 2
          apply nat_eq_toNat_of_cast
          rw [hemod]
          have hmcast : (((v % 128).toNat % 2 ^ (W - s) : Nat) : Int)
              = (v + 2 ^ (W - s)) := by
            have h1 : (((v % 128).toNat % 2 ^ (W - s) : Nat) : Int)
                = ((v % 128).toNat : Int) % ((2 ^ (W - s) : Nat) : Int) := by
              push_cast
              ring
            rw [h1, hb_cast, hveq, hcastpow]
            have hexp : W - s + (7 - (W - s)) = 7 := by omega
            have hdvd : (128 : Int) = 2 ^ (W - s) * 2 ^ (7 - (W - s)) := by
              rw [← pow_add, hexp]
              norm_num
            rw [hdvd, Int.add_mul_emod_self_left]
            apply emod_eq_add_of_neg
            · have h2 : (2 : Int) ^ (W - 1 - s) ≤ 2 ^ (W - s) :=
                pow_le_pow_right (by norm_num) (by omega)
              omega
            · exact hneg
          have hWs : (2 : Int) ^ s * 2 ^ (W - s) = 2 ^ W := by
            rw [← pow_add]
            congr 1
            omega
          rw [Nat.cast_add, Nat.cast_mul, hmcast, hcastpow]
          linear_combination hWs
    · -- continuation byte
      have hnotstop : ¬ ((v / 128 = 0 ∧ (v % 128).toNat &&& 0x40 = 0)
          ∨ (v / 128 = -1 ∧ (v % 128).toNat &&& 0x40 = 0x40)) := by
        rintro (⟨h1, h2⟩ | ⟨h1, h2⟩) <;>
          (rw [and64_eq hb_lt] at h2; split_ifs at h2 <;> omega)
      rw [serVarIntBytes_step hnotstop]
      simp only [List.cons_append, deVarIntLoop]
      rw [if_neg (by omega : ¬ s > W - 1)]
      have hbyte : (v % 128).toNat ||| 0x80 = (v % 128).toNat + 128 :=
        lor128_eq_add hb_lt
      rw [hbyte]
      rw [if_neg (by
        intro hz
        have := shr7_eq_zero_iff.mp hz
        omega)]
      have hx : ((v % 128).toNat + 128) &&& 0x7f = (v % 128).toNat := by
        rw [and127_eq_mod]
        omega
      rw [hx]
      have hsW7 : s + 7 < W := by
        by_contra hc
        push_neg at hc
        have hle : (2 : Nat) ^ (W - 1 - s) ≤ 2 ^ 6 :=
          Nat.pow_le_pow_right (by norm_num) (by omega)
        have h64 : ((2 ^ (W - 1 - s) : Nat) : Int) ≤ 64 := by
          rw [hcastpow]
          exact_mod_cast hle.trans (by norm_num)
        rw [← hcastpow] at hlo hhi
        omega
      have hfit : ((v % 128).toNat <<< s) < 2 ^ W := by
        rw [Nat.shiftLeft_eq]
        have h1 : (v % 128).toNat * 2 ^ s < 128 * 2 ^ s :=
          (Nat.mul_lt_mul_right (Nat.pos_pow_of_pos s (by norm_num))).mpr hb_lt
        have h2 : (128 : Nat) * 2 ^ s = 2 ^ (s + 7) := by
          rw [pow_add]; ring
        have h3 : (2 : Nat) ^ (s + 7) ≤ 2 ^ W :=
          Nat.pow_le_pow_right (by norm_num) (by omega)
        omega
      rw [Nat.shiftLeft_eq] at hfit ⊢
      rw [Nat.mod_eq_of_lt hfit, mul_comm ((v % 128).toNat) (2 ^ s),
        lor_eq_add_of_lt _ hr]
      simp only [List.append_eq]
      have hstep_abs : (v / 128).natAbs < v.natAbs := by
        have hv0 : v ≠ 0 := by
          intro h; rw [h] at hstop; exact hstop ⟨by norm_num, by norm_num⟩
        have hv1 : v ≠ -1 := by
          intro h; rw [h] at hstop; exact hstop ⟨by norm_num, by norm_num⟩
        omega
      have hrec := ihn (v / 128).natAbs (by omega) (v / 128) le_rfl (s + 7)
        (r + 2 ^ s * (v % 128).toNat) rest hsW7
        (by
          rw [Int.le_ediv_iff_mul_le (by norm_num : (0:Int) < 128)]
          have h1 : (2 : Int) ^ (W - 1 - (s + 7)) * 128 = 2 ^ (W - 1 - s) := by
            rw [show (128 : Int) = 2 ^ 7 by norm_num, ← pow_add]
            congr 1
            omega
          rw [neg_mul, h1]
          exact hlo)
        (by
          rw [Int.ediv_lt_iff_lt_mul (by norm_num : (0:Int) < 128)]
          have h1 : (2 : Int) ^ (W - 1 - (s + 7)) * 128 = 2 ^ (W - 1 - s) := by
            rw [show (128 : Int) = 2 ^ 7 by norm_num, ← pow_add]
            congr 1
            omega
          rw [h1]
          exact hhi)
        (by
          have h1 : 2 ^ s * (v % 128).toNat + r < 2 ^ s * ((v % 128).toNat + 1) := by
            rw [Nat.mul_add]
            omega
          have h2 : (2 : Nat) ^ s * ((v % 128).toNat + 1) ≤ 2 ^ s * 128 :=
            Nat.mul_le_mul_left _ (by omega)
          have h3 : (2 : Nat) ^ s * 128 = 2 ^ (s + 7) := by
            rw [pow_add]; norm_num
          omega)
      rw [hrec]
      have h2 : (128 : Int) * (v / 128) + v % 128 = v := Int.ediv_add_emod v 128
      have key : ((r + 2 ^ s * (v % 128).toNat : Nat) : Int) + 2 ^ (s + 7) * (v / 128)
          = (r : Int) + 2 ^ s * v := by
        push_cast
        rw [hb_cast]
        linear_combination (2 : Int) ^ s * h2
      rw [key]

/-- `u32` LEB128 round-trip: `VarUint32::deserialize ∘ VarUint32::serialize`
is the identity on `u32` values. -/
theorem varUint32_roundtrip (v : Nat) (h : v < 2 ^ 32) :
    varUint32_deserialize (serVarUintBytes v) = .ok (v, []) := by
  have hloop := deVarUintLoop_ser 32 v 0 0 [] (by norm_num) (by simpa using h) (by norm_num)
  rw [List.append_nil] at hloop
  simpa [varUint32_deserialize] using hloop

/-- `u64` LEB128 round-trip. -/
theorem varUint64_roundtrip (v : Nat) (h : v < 2 ^ 64) :
    varUint64_deserialize (serVarUintBytes v) = .ok (v, []) := by
  have hloop := deVarUintLoop_ser 64 v 0 0 [] (by norm_num) (by simpa using h) (by norm_num)
  rw [List.append_nil] at hloop
  simpa [varUint64_deserialize] using hloop

/-- `i32` LEB128 round-trip: `VarInt32::deserialize ∘ VarInt32::serialize`
is the identity on `[i32::MIN, i32::MAX]`. -/
theorem varInt32_roundtrip (v : Int) (h1 : -2 ^ 31 ≤ v) (h2 : v < 2 ^ 31) :
    varInt32_deserialize (serVarIntBytes v) = .ok (v, []) := by
  have hloop := deVarIntLoop_ser 32 .InvalidVarInt32 v 0 0 []
    (by norm_num) (by simpa using h1) (by simpa using h2) (by norm_num)
  rw [List.append_nil] at hloop
  rw [varInt32_deserialize, hloop]
  simp only [Except.map_ok, Nat.cast_zero, zero_add, pow_zero, one_mul]
  have ht : toIntW 32 ((v % 2 ^ 32).toNat) = v := by
    simp only [toIntW]
    split <;> omega
  simp only [Except.map]
  rw [ht]

/-- `i64` LEB128 round-trip. -/
theorem varInt64_roundtrip (v : Int) (h1 : -2 ^ 63 ≤ v) (h2 : v < 2 ^ 63) :
    varInt64_deserialize (serVarIntBytes v) = .ok (v, []) := by
  have hloop := deVarIntLoop_ser 64 .InvalidVarInt64 v 0 0 []
    (by norm_num) (by simpa using h1) (by simpa using h2) (by norm_num)
  rw [List.append_nil] at hloop
  rw [varInt64_deserialize, hloop]
  simp only [Except.map_ok, Nat.cast_zero, zero_add, pow_zero, one_mul]
  have ht : toIntW 64 ((v % 2 ^ 64).toNat) = v := by
    simp only [toIntW]
    split <;> omega
  simp only [Except.map]
  rw [ht]

/-- C4: LEB128 serialize/deserialize round-trip — for every `i32`, `i64`,
`u32` and `u64` value, deserializing the serialized bytes yields the value
back (and consumes exactly those bytes). -/
theorem claim_C4 :
    (∀ v : Int, -2147483648 ≤ v → v < 2147483648 →
        varInt32_deserialize (serVarIntBytes v) = .ok (v, []))
      ∧ (∀ v : Int, -9223372036854775808 ≤ v → v < 9223372036854775808 →
          varInt64_deserialize (serVarIntBytes v) = .ok (v, []))
      ∧ (∀ v : Nat, v < 4294967296 →
          varUint32_deserialize (serVarUintBytes v) = .ok (v, []))
      ∧ (∀ v : Nat, v < 18446744073709551616 →
          varUint64_deserialize (serVarUintBytes v) = .ok (v, [])) := by
  refine ⟨?_, ?_, ?_, ?_⟩
  · intro v h1 h2
    exact varInt32_roundtrip v (by norm_num; omega) (by norm_num; omega)
  · intro v h1 h2
    exact varInt64_roundtrip v (by norm_num; omega) (by norm_num; omega)
  · intro v h
    exact varUint32_roundtrip v (by norm_num; omega)
  · intro v h
    exact varUint64_roundtrip v (by norm_num; omega)

/-- C4 witness: the round-trip applied at `-8192 : i32`, `i64::MIN`,
`8192 : u32` and `u64::MAX`. -/
theorem claim_C4_witness :
    varInt32_deserialize (serVarIntBytes (-8192)) = .ok (-8192, [])
      ∧ varInt64_deserialize (serVarIntBytes (-9223372036854775808))
        = .ok (-9223372036854775808, [])
      ∧ varUint32_deserialize (serVarUintBytes 8192) = .ok (8192, [])
      ∧ varUint64_deserialize (serVarUintBytes 18446744073709551615)
        = .ok (18446744073709551615, []) :=
  ⟨claim_C4.1 (-8192) (by norm_num) (by norm_num),
   claim_C4.2.1 (-9223372036854775808) (by norm_num) (by norm_num),
   claim_C4.2.2.1 8192 (by norm_num),
   claim_C4.2.2.2 18446744073709551615 (by norm_num)⟩

/-- No alignment error from a bind when neither part produces one. -/
theorem noAlign_bind {α β : Type} {x : Except VError α} {f : α → Except VError β}
    (hx : ∀ a m, x ≠ .error (.Validation (.tooLargeAlignment a m)))
    (hf : ∀ y a m, f y ≠ .error (.Validation (.tooLargeAlignment a m))) :
    ∀ a m, (x >>= f) ≠ .error (.Validation (.tooLargeAlignment a m)) := by
  intro a m h
  rcases hx2 : x with e | y <;> rw [hx2] at h <;>
    simp only [Bind.bind, Except.bind] at h
  · simp only [Except.error.injEq] at h
    exact hx a m (by rw [hx2, h])
  · exact hf y a m h

/-- `check_stack_access` never produces the alignment error. -/
theorem noAlign_check_stack_access (ctx : FunctionValidationContext) :
    ∀ a m, ctx.check_stack_access ≠ .error (.Validation (.tooLargeAlignment a m)) := by
  intro a m h
  unfold FunctionValidationContext.check_stack_access at h
  split at h
  · simp at h
  · split at h <;> simp at h

/-- `push_value` never produces the alignment error. -/
theorem noAlign_push_value (ctx : FunctionValidationContext) (vt : StackValueType) :
    ∀ a m, ctx.push_value vt ≠ .error (.Validation (.tooLargeAlignment a m)) := by
  intro a m h
  unfold FunctionValidationContext.push_value at h
  split at h <;> simp at h

/-- `pop_value` never produces the alignment error. -/
theorem noAlign_pop_value (ctx : FunctionValidationContext) (vt : StackValueType) :
    ∀ a m, ctx.pop_value vt ≠ .error (.Validation (.tooLargeAlignment a m)) := by
  unfold FunctionValidationContext.pop_value
  refine noAlign_bind (noAlign_check_stack_access ctx) ?_
  intro y a m h
  split at h
  · simp at h
  · split at h
    · split at h <;> simp at h
    · simp at h
    · exact noAlign_push_value _ _ a m h

/-- `require_memory` never produces the alignment error. -/
theorem noAlign_require_memory (ctx : FunctionValidationContext) :
    ∀ a m, ctx.require_memory ≠ .error (.Validation (.tooLargeAlignment a m)) := by
  intro a m h
  unfold FunctionValidationContext.require_memory at h
  split at h <;> simp at h

/-- C5: for loads and stores with natural width `max_align` bytes, validation
fails with the alignment error exactly when the hint is not the sentinel
`0xFFFFFFFF` and `1 << align` (i.e. `2 ^ align`, with `checked_shl` saturating
to `u32::MAX` for shifts of 32 and more) exceeds the natural width; the
sentinel skips the check entirely, behaving exactly like a passing hint. -/
theorem claim_C5 (ctx : FunctionValidationContext) (align max_align : Nat)
    (vt : StackValueType) (hmax1 : 1 ≤ max_align) (hmax8 : max_align ≤ 8) :
    (validate_load ctx align max_align vt
        = .error (.Validation (.tooLargeAlignment align max_align))
      ↔ align ≠ 0xFFFFFFFF ∧ 2 ^ align > max_align)
      ∧ (validate_store ctx align max_align vt
        = .error (.Validation (.tooLargeAlignment align max_align))
      ↔ align ≠ 0xFFFFFFFF ∧ 2 ^ align > max_align)
      ∧ validate_load ctx 0xFFFFFFFF max_align vt = validate_load ctx 0 max_align vt
      ∧ validate_store ctx 0xFFFFFFFF max_align vt = validate_store ctx 0 max_align vt := by
  have hcond : (align ≠ NATURAL_ALIGNMENT ∧ checkedShlOneOrMax align > max_align)
      ↔ (align ≠ 0xFFFFFFFF ∧ 2 ^ align > max_align) := by
    unfold NATURAL_ALIGNMENT checkedShlOneOrMax
    constructor
    · rintro ⟨h1, h2⟩
      refine ⟨h1, ?_⟩
      split at h2
      · rwa [Nat.shiftLeft_eq, one_mul] at h2
      · have hge : (2 : Nat) ^ 32 ≤ 2 ^ align :=
          Nat.pow_le_pow_right (by norm_num) (by omega)
        have h32 : (2 : Nat) ^ 32 = 4294967296 := by norm_num
        omega
    · rintro ⟨h1, h2⟩
      refine ⟨h1, ?_⟩
      split
      · rwa [Nat.shiftLeft_eq, one_mul]
      · omega
  have hload_rest : ∀ a m,
      (ctx.pop_value (.Specific .I32) >>= fun ctx₁ =>
        ctx₁.require_memory >>= fun _ =>
          ctx₁.push_value vt >>= fun ctx₂ =>
            (.ok (.ValidateNextInstruction, ctx₂) :
              Except VError (InstructionOutcome × FunctionValidationContext)))
        ≠ .error (.Validation (.tooLargeAlignment a m)) := by
    refine noAlign_bind (noAlign_pop_value _ _) ?_
    intro ctx₁
    refine noAlign_bind (noAlign_require_memory _) ?_
    intro y
    refine noAlign_bind (noAlign_push_value _ _) ?_
    intro ctx₂ a m h
    simp at h
  have hstore_rest : ∀ a m,
      (ctx.require_memory >>= fun _ =>
        ctx.pop_value vt >>= fun ctx₁ =>
          ctx₁.pop_value (.Specific .I32) >>= fun ctx₂ =>
            (.ok (.ValidateNextInstruction, ctx₂) :
              Except VError (InstructionOutcome × FunctionValidationContext)))
        ≠ .error (.Validation (.tooLargeAlignment a m)) := by
    refine noAlign_bind (noAlign_require_memory _) ?_
    intro y
    refine noAlign_bind (noAlign_pop_value _ _) ?_
    intro ctx₁
    refine noAlign_bind (noAlign_pop_value _ _) ?_
    intro ctx₂ a m h
    simp at h
  refine ⟨?_, ?_, ?_, ?_⟩
  · constructor
    · intro h
      unfold validate_load at h
      split at h
      · next hcc => exact hcond.mp hcc
      · exact absurd h (hload_rest align max_align)
    · intro hc
      unfold validate_load
      rw [if_pos (hcond.mpr hc)]
  · constructor
    · intro h
      unfold validate_store at h
      split at h
      · next hcc => exact hcond.mp hcc
      · exact absurd h (hstore_rest align max_align)
    · intro hc
      unfold validate_store
      rw [if_pos (hcond.mpr hc)]
  · unfold validate_load
    rw [if_neg (by unfold NATURAL_ALIGNMENT; simp),
      if_neg (by
        unfold NATURAL_ALIGNMENT checkedShlOneOrMax
        rintro ⟨-, hgt⟩
        rw [if_pos (by norm_num)] at hgt
        simp [Nat.shiftLeft_eq] at hgt
        omega)]
  · unfold validate_store
    rw [if_neg (by unfold NATURAL_ALIGNMENT; simp),
      if_neg (by
        unfold NATURAL_ALIGNMENT checkedShlOneOrMax
        rintro ⟨-, hgt⟩
        rw [if_pos (by norm_num)] at hgt
        simp [Nat.shiftLeft_eq] at hgt
        omega)]

/-- C5 witness: on a context holding an I32 and one frame, `i32.load` with
hint `2^3 = 8` on natural width 4 is rejected with the alignment error, and
the sentinel hint behaves like a passing hint. -/
theorem claim_C5_witness :
    validate_load sampleContext 3 4 (.Specific .I32)
      = .error (.Validation (.tooLargeAlignment 3 4))
      ∧ validate_store sampleContext 0xFFFFFFFF 4 (.Specific .I32)
      = validate_store sampleContext 0 4 (.Specific .I32) := by
  constructor
  · exact (claim_C5 sampleContext 3 4 (.Specific .I32) (by norm_num) (by norm_num)).1.mpr
      (by constructor <;> norm_num)
  · exact (claim_C5 sampleContext 0xFFFFFFFF 4 (.Specific .I32)
      (by norm_num) (by norm_num)).2.2.2

/-- C6: `validate_br`/`validate_br_if` look the targeted frame up with
`require_label`; a `Loop` target needs no value; a non-`Loop` target with a
`Value` block type is checked with `tee_value`, which inspects the top of the
operand stack without consuming it — a successful `validate_br` returns the
context unchanged, and `validate_br_if` changes it only by the I32 condition
pop. -/
theorem claim_C6 (ctx : FunctionValidationContext) (idx : Nat) (frame : BlockFrame)
    (hreq : ctx.require_label idx = .ok frame) :
    (frame.frame_type = .Loop → validate_br ctx idx = .ok (.Unreachable, ctx))
      ∧ (frame.frame_type ≠ .Loop → frame.block_type = .NoResult →
          validate_br ctx idx = .ok (.Unreachable, ctx))
      ∧ (∀ v, frame.frame_type ≠ .Loop → frame.block_type = .Value v →
          validate_br ctx idx
            = (ctx.tee_value (.Specific v)).map (fun _ => (.Unreachable, ctx)))
      ∧ (∀ p, validate_br ctx idx = .ok p → p.2 = ctx)
      ∧ (∀ v top f', ctx.frame_stack.top = .ok f' →
          f'.value_stack_len < ctx.value_stack.len →
          ctx.value_stack.top = .ok top →
          (ctx.tee_value (.Specific v) = .ok () ↔ top.eq (.Specific v) = true))
      ∧ (∀ ctx₁ frame' v, ctx.pop_value (.Specific .I32) = .ok ctx₁ →
          ctx₁.require_label idx = .ok frame' → frame'.frame_type ≠ .Loop →
          frame'.block_type = .Value v →
          validate_br_if ctx idx
            = (ctx₁.tee_value (.Specific v)).map
                (fun _ => (.ValidateNextInstruction, ctx₁))) := by
  have hbr : validate_br ctx idx
      = (if frame.frame_type ≠ .Loop then
          match frame.block_type with
          | .Value v => ctx.tee_value (.Specific v) >>= fun _ => .ok (.Unreachable, ctx)
          | .NoResult => .ok (.Unreachable, ctx)
        else .ok (.Unreachable, ctx)) := by
    unfold validate_br
    rw [hreq]
    rfl
  refine ⟨?_, ?_, ?_, ?_, ?_, ?_⟩
  · intro hloop
    rw [hbr, if_neg (by simp [hloop])]
  · intro hnl hnr
    rw [hbr, if_pos hnl, hnr]
  · intro v hnl hbt
    rw [hbr, if_pos hnl, hbt]
    rcases htee : ctx.tee_value (.Specific v) with e | u <;>
      simp [htee, Except.map, Bind.bind, Except.bind]
  · intro p hp
    rw [hbr] at hp
    split at hp
    · split at hp
      · rcases htee : ctx.tee_value (.Specific _) with e | u <;> rw [htee] at hp <;>
          simp only [Bind.bind, Except.bind] at hp
        · simp at hp
        · simp only [Except.ok.injEq] at hp
          rw [← hp]
      · simp only [Except.ok.injEq] at hp
        rw [← hp]
    · simp only [Except.ok.injEq] at hp
      rw [← hp]
  · intro v top f' hftop hlen hvtop
    unfold FunctionValidationContext.tee_value FunctionValidationContext.check_stack_access
    simp only [hftop]
    rw [if_pos hlen]
    rcases top with - | - | t <;>
      simp only [Bind.bind, Except.bind, hvtop]
    · simp [StackValueType.eq]
    · simp [StackValueType.eq]
    · split
      · next heq => simp [heq]
      · next hne => simp [hne]
  · intro ctx₁ frame' v hpop hreq' hnl hbt
    unfold validate_br_if
    simp only [hpop, Bind.bind, Except.bind]
    unfold FunctionValidationContext.require_label at hreq' ⊢
    rcases hget : ctx₁.frame_stack.get idx with e | f0 <;> rw [hget] at hreq'
    · simp at hreq'
    · simp only [Except.ok.injEq] at hreq'
      subst hreq'
      simp only [hget]
      rw [if_pos hnl, hbt]
      rcases htee : ctx₁.tee_value (.Specific v) with e | u <;>
        simp [htee, Except.map, Bind.bind, Except.bind]

/-- C6 witness: with a `Loop` frame on top, `br 0` succeeds with no value
check and leaves the context unchanged; with a `Block i32` frame on top and
an `I32` on the stack, `br 0` checks the top without consuming it and still
returns the unchanged context. -/
theorem claim_C6_witness :
    validate_br sampleLoopContext 0 = .ok (.Unreachable, sampleLoopContext)
      ∧ validate_br sampleValueContext 0 = .ok (.Unreachable, sampleValueContext) := by
  constructor
  · exact (claim_C6 sampleLoopContext 0 ⟨.Loop, .NoResult, 0, 0, 0, 0⟩ (by decide)).1 rfl
  · exact ((claim_C6 sampleValueContext 0 ⟨.Block, .Value .I32, 0, 0, 0, 0⟩
      (by decide)).2.2.1 .I32 (by decide) rfl).trans (by decide)

/-- C3 counterexample: `unreachable` does not set the operand stack to a
single `AnyUnlimited` marker — on a context already holding an `I32` it
pushes the marker on top, leaving a two-element stack. -/
theorem claim_C3_counterexample :
    FunctionValidationContext.unreachable sampleContext
      = .ok { sampleContext with
          value_stack := { values := [.Specific .I32, .AnyUnlimited], limit := 16 } }
      ∧ ({ values := [.Specific .I32, .AnyUnlimited], limit := 16 }
          : StackWithLimit StackValueType).len ≠ 1 := by
  exact ⟨by decide, by decide⟩

/-- C3 (amended): `unreachable` *pushes* an `AnyUnlimited` marker onto the
operand stack (prior contents stay below it); the marker is never removed by
`pop_value`/`pop_any_value`, which pop it and push it right back, so the
context is unchanged; it is consumed only when the enclosing frame is closed
by `pop_label` (`End`), which pops it and cuts the stack back to the frame's
base length. -/
theorem claim_C3 (ctx : FunctionValidationContext) (vt : StackValueType)
    (f frame : BlockFrame) (ys : List StackValueType)
    (fs : StackWithLimit BlockFrame) :
    (ctx.value_stack.len < ctx.value_stack.limit →
      ctx.unreachable = .ok { ctx with
        value_stack := ⟨ctx.value_stack.values ++ [.AnyUnlimited], ctx.value_stack.limit⟩ })
      ∧ (ctx.frame_stack.top = .ok f → f.value_stack_len < ctx.value_stack.len →
          ctx.value_stack.values = ys ++ [.AnyUnlimited] →
          ctx.value_stack.len ≤ ctx.value_stack.limit →
          ctx.pop_value vt = .ok ctx)
      ∧ (ctx.frame_stack.top = .ok f → f.value_stack_len < ctx.value_stack.len →
          ctx.value_stack.values = ys ++ [.AnyUnlimited] →
          ctx.value_stack.len ≤ ctx.value_stack.limit →
          ctx.pop_any_value = .ok (.Any, ctx))
      ∧ (ctx.frame_stack.pop = .ok (frame, fs) → frame.block_type = .NoResult →
          ctx.value_stack.values = ys ++ [.AnyUnlimited] →
          frame.value_stack_len ≤ ys.length →
          (ctx.pop_label).map (fun p => (p.1, p.2.value_stack.values))
            = .ok (.ValidateNextInstruction, ys.take frame.value_stack_len)) := by
  refine ⟨?_, ?_, ?_, ?_⟩
  · intro hlen
    unfold FunctionValidationContext.unreachable FunctionValidationContext.push_value
      StackWithLimit.push
    rw [if_neg (by simp only [StackWithLimit.len] at hlen; omega)]
  · intro htop hacc hys hlim
    have h1 : ctx.value_stack.pop
        = .ok (.AnyUnlimited, { ctx.value_stack with values := ys }) := by
      unfold StackWithLimit.pop
      rw [hys]
      simp [List.getLast?_concat, List.dropLast_concat]
    unfold FunctionValidationContext.pop_value FunctionValidationContext.check_stack_access
    simp only [htop]
    rw [if_pos hacc]
    simp only [Bind.bind, Except.bind, h1]
    unfold FunctionValidationContext.push_value StackWithLimit.push
    rw [if_neg (by
      simp only [StackWithLimit.len] at hlim
      rw [hys] at hlim
      simp only [List.length_append, List.length_cons, List.length_nil] at hlim
      simp only [not_le]
      omega)]
    simp only [← hys]
  · intro htop hacc hys hlim
    have h1 : ctx.value_stack.pop
        = .ok (.AnyUnlimited, { ctx.value_stack with values := ys }) := by
      unfold StackWithLimit.pop
      rw [hys]
      simp [List.getLast?_concat, List.dropLast_concat]
    unfold FunctionValidationContext.pop_any_value FunctionValidationContext.check_stack_access
    simp only [htop]
    rw [if_pos hacc]
    simp only [Bind.bind, Except.bind, h1]
    unfold FunctionValidationContext.push_value StackWithLimit.push
    rw [if_neg (by
      simp only [StackWithLimit.len] at hlim
      rw [hys] at hlim
      simp only [List.length_append, List.length_cons, List.length_nil] at hlim
      simp only [not_le]
      omega)]
    simp only [Bind.bind, Except.bind, ← hys]
  · intro hpop hnr hys hlen'
    unfold FunctionValidationContext.pop_label
    simp only [hpop]
    have hlen2 : ctx.value_stack.len = ys.length + 1 := by
      simp only [StackWithLimit.len, hys, List.length_append, List.length_cons,
        List.length_nil]
    rw [if_pos (by omega)]
    have h1 : ctx.value_stack.pop
        = .ok (.AnyUnlimited, { ctx.value_stack with values := ys }) := by
      unfold StackWithLimit.pop
      rw [hys]
      simp [List.getLast?_concat, List.dropLast_concat]
    simp only [h1]
    unfold StackWithLimit.resize
    simp only [StackWithLimit.len, List.length_append, List.length_cons, List.length_nil]
    rw [hnr]
    simp only [StackValueType.eq]
    have hrep : frame.value_stack_len - ys.length = 0 := by omega
    rw [hrep]
    simp only [List.replicate, List.append_nil]
    split
    · split <;> rfl
    · simp_all
  

/-- C3 witness: on the context holding a lone `AnyUnlimited` marker, popping
an `I32` (dead code) and popping any value both leave the context unchanged,
and closing the `Function` frame consumes the marker, cutting the stack back
to its base. -/
theorem claim_C3_witness :
    FunctionValidationContext.pop_value sampleUnreachableContext (.Specific .I32)
        = .ok sampleUnreachableContext
      ∧ FunctionValidationContext.pop_any_value sampleUnreachableContext
        = .ok (.Any, sampleUnreachableContext)
      ∧ (FunctionValidationContext.pop_label sampleUnreachableContext).map
          (fun p => (p.1, p.2.value_stack.values))
        = .ok (.ValidateNextInstruction, ([] : List StackValueType)) := by
  have h := claim_C3 sampleUnreachableContext (.Specific .I32)
    ⟨.Function, .NoResult, 0, 0, 0, 0⟩ ⟨.Function, .NoResult, 0, 0, 0, 0⟩ []
    ⟨[], 16⟩
  refine ⟨h.2.1 (by decide) (by decide) (by decide) (by decide),
    h.2.2.1 (by decide) (by decide) (by decide) (by decide), ?_⟩
  have h4 := h.2.2.2 (by decide) rfl (by decide) (by decide)
  simpa using h4

end SophonWasm



